import Mathlib

set_option maxRecDepth 10000

/-!
Verification development for `ppt-img-extract` (src/src/main.rs), a tool that
extracts per-page text runs and referenced image filenames from an OOXML
presentation archive.

The Rust source is shallowly embedded below:

* pure string scanning (the two regexes `RE_TEXT` and `RE_PAGE_NO`) is
  embedded as executable scanners over `List Char` that reproduce the
  regex engine's leftmost-match, lazy-`+?`, greedy-`\d+`-with-backtracking
  and unescaped-`.` (any character except newline) behaviour;
* fallible code returns `Except`; a Rust `unwrap` panic is modelled as the
  `none` of an outer `Option` (a panic aborts the whole run, unlike an
  `Err`, which `main` merely logs);
* `HashMap` contents are modelled as association lists (`hashInsert`
  replaces in place or appends); `HashMap::values()` iteration order is
  unspecified in Rust, so the order in which `main` collects `rels.values()`
  into `images` is a parameter `ord` of the embedding, constrained only by
  `Admissible` (it yields exactly the map's values, in some order);
* the zip archive and the XML parser are external collaborators: an `Entry`
  carries its internal path, its content as a string (what
  `read_to_string` yields) and the result of XML-parsing its content
  (`none` = malformed XML, i.e. `xmltree::Element::parse` fails).
-/

deriving instance DecidableEq for Except

/-! ## Path constants (src/src/main.rs lines 31-37) -/

def DIR_MEDIA : String := "ppt/media"

def DIR_SLIDES_RELS : String := "ppt/slides/_rels"

def MASTER_RELS_DIR : String := "ppt/slideMasters/_rels"

def DIR_SLIDES : String := "ppt/slides"

def ATTR_REL_TYPE_IMAGE : String :=
  "http://schemas.openxmlformats.org/officeDocument/2006/relationships/image"

/-- Rust `str::starts_with`: character-wise prefix test. -/
def startsWithStr (s p : String) : Bool :=
  p.data.isPrefixOf s.data

/-! ## `Path::file_name` for slash-delimited internal paths.

Model of `Path::new(p).file_name()`: the last path component, ignoring
empty components and `.`; `none` when the path terminates in `..` or has
no component.  Used by `rels` (line 254) and by the media exporter
(line 208). -/

def splitSlash : List Char → List (List Char)
  | [] => [[]]
  | c :: cs =>
    let r := splitSlash cs
    if c = '/' then [] :: r
    else
      match r with
      | h :: t => (c :: h) :: t
      | [] => [[c]]

def baseName (p : String) : Option String :=
  let comps := (splitSlash p.data).filter (fun c => ¬ (c = [] ∨ c = ['.']))
  match comps.getLast? with
  | none => none
  | some c => if c = ['.', '.'] then none else some (String.mk c)

/-! ## Page Identifier (src/src/main.rs lines 266-276)

`RE_PAGE_NO = (slide|slideMaster)(\d+).xml` (line 17).  Note: the `.` is
unescaped, so it matches any character except `'\n'`.  The scanner below
reproduces the regex engine's behaviour: positions are tried left to
right; at a position the alternative `slide` is tried before
`slideMaster`; `\d+` is greedy and gives characters back one at a time
(down to one digit) until `.xml` matches. -/

def kwSlide : List Char := ['s', 'l', 'i', 'd', 'e']

def kwSlideMaster : List Char :=
  ['s', 'l', 'i', 'd', 'e', 'M', 'a', 's', 't', 'e', 'r']

def xmlLit : List Char := ['x', 'm', 'l']

/-- Does `.xml` (any char except newline, then `xml`) match at offset `k` of `rest`? -/
def tailOk (rest : List Char) (k : Nat) : Bool :=
  match rest.drop k with
  | c :: t => c ≠ '\n' && xmlLit.isPrefixOf t
  | [] => false

/-- Backtracking of the greedy `\d+`: try `k` consumed digits, from `n` down to 1. -/
def pickK (ds rest : List Char) : Nat → Option (List Char)
  | 0 => none
  | Nat.succ k => if tailOk rest (k + 1) then some (ds.take (k + 1)) else pickK ds rest k

/-- Try `kw(\d+).xml` anchored at the head of `l`; returns the captured digit run. -/
def tryKw (kw l : List Char) : Option (List Char) :=
  if kw.isPrefixOf l then
    let rest := l.drop kw.length
    let ds := rest.takeWhile Char.isDigit
    if ds.length = 0 then none else pickK ds rest ds.length
  else none

/-- Try the full pattern anchored at the head of `l` (`slide` first, then `slideMaster`). -/
def tryAt (l : List Char) : Option (List Char) :=
  match tryKw kwSlide l with
  | some ds => some ds
  | none => tryKw kwSlideMaster l

/-- Leftmost match of `RE_PAGE_NO`: first position whose anchored attempt succeeds. -/
def findPageMatch : List Char → Option (List Char)
  | [] => none
  | c :: cs =>
    match tryAt (c :: cs) with
    | some ds => some ds
    | none => findPageMatch cs

def digitsToNat (ds : List Char) : Nat :=
  ds.foldl (fun a c => a * 10 + (c.toNat - 48)) 0

/-- One above `u32::MAX`; `parse::<u32>` fails exactly when the value reaches it. -/
def U32SIZE : Nat := 4294967296

/-- `page_no` (lines 266-276): the captured digit run is parsed with
`parse::<u32>().unwrap()` — overflow panics (`none`); when the regex does
not match, `Err("Can't find valid page no")` is returned. -/
def page_no (fname : String) : Option (Except String Nat) :=
  match findPageMatch fname.data with
  | some ds =>
    if digitsToNat ds < U32SIZE then some (Except.ok (digitsToNat ds))
    else none
  | none => some (Except.error "Can't find valid page no")

/-! ## Text Extractor (src/src/main.rs lines 16, 220-238)

`RE_TEXT = <a:t>([\s\S]+?)</a:t>` (line 16): at least one inner character
(lazy), `[\s\S]` matching any character including newline.
`slide()` pushes the first capture group of every non-overlapping match,
in order of appearance.

A match starting at position `i` requires `<a:t>` at `i` and a `</a:t>`
occurrence starting at some `j ≥ i + 6`; the lazy `+?` picks the first
such `j`.  If the first `<a:t>` occurrence has no closing occurrence at
distance ≥ 1 after it, then no later occurrence has one either, so the
leftmost match (when one exists) always starts at the first `<a:t>`.
`scanAux` implements exactly that; the fuel argument (bounded by the
list length) only serves termination. -/

def openTag : List Char := ['<', 'a', ':', 't', '>']

def closeTag : List Char := ['<', '/', 'a', ':', 't', '>']

/-- First occurrence of `tag` in `l`: returns the part before the
occurrence and the part after it. -/
def splitFirst (tag : List Char) : List Char → Option (List Char × List Char)
  | [] => none
  | c :: cs =>
    if tag.isPrefixOf (c :: cs) then some ([], (c :: cs).drop tag.length)
    else
      match splitFirst tag cs with
      | some (b, a) => some (c :: b, a)
      | none => none

def scanAux : Nat → List Char → List String
  | 0, _ => []
  | fuel + 1, l =>
    match splitFirst openTag l with
    | none => []
    | some (_, rest) =>
      match rest with
      | [] => []
      | d :: ds =>
        match splitFirst closeTag ds with
        | none => []
        | some (b, a) => String.mk (d :: b) :: scanAux fuel a

/-- All capture groups of `RE_TEXT.captures_iter`, in order (lines 229-233). -/
def extractTexts (s : String) : List String :=
  scanAux s.data.length s.data

/-! ## XML model and the Relationship Resolver (src/src/main.rs lines 240-263)

The XML parser (`xmltree`) is an external collaborator; what `rels`
consumes is the parsed element's `children` together with each child's
name and attribute map. -/

inductive XMLNode where
  | element (name : String) (attributes : List (String × String)) : XMLNode
  | other : XMLNode
deriving DecidableEq, Repr

structure XmlDoc where
  children : List XMLNode
deriving DecidableEq, Repr

/-- `attributes.get(k)` on xmltree's attribute map. -/
def attrLookup (attrs : List (String × String)) (k : String) : Option String :=
  match attrs with
  | [] => none
  | (k', v) :: t => if k' = k then some v else attrLookup t k

/-- `HashMap::insert`: replace the value of an existing key, else add the pair. -/
def hashInsert (m : List (String × String)) (k v : String) : List (String × String) :=
  if m.any (fun p => p.1 = k) then
    m.map (fun p => if p.1 = k then (k, v) else p)
  else m ++ [(k, v)]

/-- The `for image_rel_node in image_rel_nodes` loop of `rels`
(lines 243-260).  The filter closure calls `node.as_element().unwrap()`
on every child (a non-element child panics, `none`); a kept element's
`Target`, `Id` and the `file_name()` of `Target` are each `unwrap`ped
(missing ⇒ panic, `none`). -/
def buildMap : List XMLNode → List (String × String) → Option (List (String × String))
  | [], acc => some acc
  | XMLNode.other :: _, _ => none
  | XMLNode.element nm attrs :: t, acc =>
    if nm = "Relationship" ∧ attrLookup attrs "Type" = some ATTR_REL_TYPE_IMAGE then
      match attrLookup attrs "Target" with
      | none => none
      | some tgt =>
        match attrLookup attrs "Id" with
        | none => none
        | some i =>
          match baseName tgt with
          | none => none
          | some b => buildMap t (hashInsert acc i b)
    else buildMap t acc

inductive RelsErr where
  | parse : RelsErr
  | custom : String → RelsErr
deriving DecidableEq, Repr

/-- One archive entry as the walker sees it: internal path, string content
(what `read_to_string` yields) and the XML-parse of the content
(`none` = not well-formed XML). -/
structure Entry where
  name : String
  text : String
  xml : Option XmlDoc
  isDir : Bool
deriving DecidableEq, Repr

/-- `rels` (lines 240-263): parse failure is `Err(Parse ...)`; the
identifier→base-filename map is built over the image-typed `Relationship`
children; the page number comes from `page_no` on the entry path
(its `Err(String)` is converted into `ExportMediaError::Custom` by `?`). -/
def rels (e : Entry) : Option (Except RelsErr (Nat × List (String × String))) :=
  match e.xml with
  | none => some (Except.error RelsErr.parse)
  | some doc =>
    match buildMap doc.children [] with
    | none => none
    | some m =>
      match page_no e.name with
      | none => none
      | some (Except.error s) => some (Except.error (RelsErr.custom s))
      | some (Except.ok p) => some (Except.ok (p, m))

/-! ## Data model and the Text Extractor's result (lines 39-57, 220-238) -/

structure SingleRes where
  page_no : Nat
  slide_master : Bool
  images : List String
  texts : List String
deriving DecidableEq, Repr

/-- `slide` (lines 220-238): extract all text runs, then compute the page
number from the path (`Err` propagates with `?`; a u32-overflow parse
panics). -/
def slide (e : Entry) : Option (Except String SingleRes) :=
  let texts := extractTexts e.text
  match page_no e.name with
  | none => none
  | some (Except.error s) => some (Except.error s)
  | some (Except.ok p) =>
    some (Except.ok { page_no := p, slide_master := false, images := [], texts := texts })

structure PageRes where
  slides : List (Nat × SingleRes)
  masters : List (Nat × SingleRes)
deriving DecidableEq, Repr

/-- Lookup in the page-number-keyed map. -/
def lookupRes : List (Nat × SingleRes) → Nat → Option SingleRes
  | [], _ => none
  | (k', v) :: t, k => if k' = k then some v else lookupRes t k

/-- `map.entry(k).or_insert_with(|| dflt)` followed by a field assignment
`f`: mutate the existing record in place, or insert `dflt` and mutate it. -/
def mapUpdate (m : List (Nat × SingleRes)) (k : Nat) (dflt : SingleRes)
    (f : SingleRes → SingleRes) : List (Nat × SingleRes) :=
  match lookupRes m k with
  | some _ => m.map (fun p => if p.1 = k then (k, f p.2) else p)
  | none => m ++ [(k, f dflt)]

/-! ## Archive Walker / Dispatcher (src/src/main.rs lines 79-160) -/

inductive Route where
  | media : Route
  | slidesRels : Route
  | slideText : Route
  | masterRels : Route
  | ignored : Route
deriving DecidableEq, Repr

/-- The `if`/`else if` chain on `fname` in `main` (lines 86, 95, 115, 139),
in source order. -/
def route (name : String) : Route :=
  if startsWithStr name DIR_MEDIA then Route.media
  else if startsWithStr name DIR_SLIDES_RELS then Route.slidesRels
  else if startsWithStr name DIR_SLIDES then Route.slideText
  else if startsWithStr name MASTER_RELS_DIR then Route.masterRels
  else Route.ignored

/-- `HashMap::values().cloned().collect()` (lines 109, 153) yields the
map's values in an unspecified order; the embedding is parameterized by
that order. -/
def Admissible (ord : List (String × String) → List String) : Prop :=
  ∀ m, List.Perm (ord m) (m.map Prod.snd)

/-- One iteration of the entry loop of `main` (lines 79-160).  `none`
models a panic aborting the run; a logged per-entry `Err` leaves the
aggregate unchanged.  Media export is a pure side effect (only its
`file_name().unwrap()` can abort). -/
def processEntry (ord : List (String × String) → List String) (st : PageRes)
    (e : Entry) : Option PageRes :=
  if e.isDir then some st
  else
    match route e.name with
    | Route.media =>
      match baseName e.name with
      | none => none
      | some _ => some st
    | Route.slidesRels =>
      match rels e with
      | none => none
      | some (Except.error _) => some st
      | some (Except.ok (p, m)) =>
        some { st with
          slides := mapUpdate st.slides p
            { page_no := p, slide_master := false, images := [], texts := [] }
            (fun r => { r with images := ord m }) }
    | Route.slideText =>
      match slide e with
      | none => none
      | some (Except.error _) => some st
      | some (Except.ok pr) =>
        some { st with
          slides := mapUpdate st.slides pr.page_no
            { page_no := pr.page_no, slide_master := false, images := [],
              texts := pr.texts }
            (fun r => { r with texts := pr.texts }) }
    | Route.masterRels =>
      match rels e with
      | none => none
      | some (Except.error _) => some st
      | some (Except.ok (p, m)) =>
        some { st with
          masters := mapUpdate st.masters p
            { page_no := p, slide_master := true, images := [], texts := [] }
            (fun r => { r with images := ord m }) }
    | Route.ignored => some st

/-- The whole entry loop over a list of entries. -/
def runEntries (ord : List (String × String) → List String) (st : PageRes) :
    List Entry → Option PageRes
  | [] => some st
  | e :: es =>
    match processEntry ord st e with
    | none => none
    | some st' => runEntries ord st' es

/-- The empty aggregate `main` starts from (lines 63-73). -/
def initRes : PageRes := { slides := [], masters := [] }


/-! ## Derived definitions used in stating the claims -/

/-- C9 invariant: every record in the masters map has an empty texts list. -/
def MastersTextsEmpty (st : PageRes) : Prop :=
  ∀ p r, lookupRes st.masters p = some r → r.texts = []

/-- The (Id, base filename) pair a single image-typed Relationship element
contributes (none for non-image elements or missing attributes). -/
def relPair (n : XMLNode) : Option (String × String) :=
  match n with
  | XMLNode.element nm attrs =>
    if nm = "Relationship" ∧ attrLookup attrs "Type" = some ATTR_REL_TYPE_IMAGE then
      match attrLookup attrs "Id", (attrLookup attrs "Target").bind baseName with
      | some i, some b => some (i, b)
      | _, _ => none
    else none
  | XMLNode.other => none

/-- The base filename a single image-typed Relationship element refers to. -/
def relTarget (n : XMLNode) : Option String :=
  match n with
  | XMLNode.element nm attrs =>
    if nm = "Relationship" ∧ attrLookup attrs "Type" = some ATTR_REL_TYPE_IMAGE
    then (attrLookup attrs "Target").bind baseName else none
  | XMLNode.other => none

/-- Modelled from the spec (§3): the base filenames of the media referenced
by the image-typed Relationship elements, in relationship-document
iteration order.  Stated from the spec's words for comparison with what
the code computes. -/
def imageTargets (doc : XmlDoc) : List String :=
  doc.children.filterMap relTarget

/-- The (Id, base filename) pairs of the image-typed Relationship elements
in document order. -/
def imagePairs (doc : XmlDoc) : List (String × String) :=
  doc.children.filterMap relPair

/-- Reversed values order: one of the iteration orders `HashMap::values()`
may produce. -/
def ordRev : List (String × String) → List String :=
  fun m => (m.map Prod.snd).reverse

/-- The claim's page pattern: a category keyword immediately followed by a
nonempty digit run and the literal `.xml`. -/
def DotXmlAt (l : List Char) : Prop :=
  ∃ pre kw ds suf, (kw = kwSlide ∨ kw = kwSlideMaster) ∧ ds ≠ [] ∧
    (∀ c ∈ ds, c.isDigit) ∧ l = pre ++ kw ++ ds ++ '.' :: (xmlLit ++ suf)

/-- The pattern the unescaped dot actually recognizes: keyword, nonempty
digit run, any non-newline character, then `xml`. -/
def AnyXmlAt (l : List Char) : Prop :=
  ∃ pre kw ds c suf, (kw = kwSlide ∨ kw = kwSlideMaster) ∧ ds ≠ [] ∧
    (∀ x ∈ ds, x.isDigit) ∧ c ≠ '\n' ∧ l = pre ++ kw ++ ds ++ c :: (xmlLit ++ suf)

/-! ## Helper lemmas -/


theorem isPrefixOf_append_right (l t : List Char) : l.isPrefixOf (l ++ t) = true := by
  induction l with
  | nil => simp only [List.isPrefixOf_nil_left]
  | cons c cs ih => simp only [List.cons_append, List.isPrefixOf_cons₂_self, ih]

theorem eq_append_of_isPrefixOf :
    ∀ {l₁ l₂ : List Char}, l₁.isPrefixOf l₂ = true → ∃ t, l₂ = l₁ ++ t := by
  intro l₁
  induction l₁ with
  | nil => intro l₂ _; exact ⟨l₂, rfl⟩
  | cons c cs ih =>
    intro l₂ h
    cases l₂ with
    | nil => simp at h
    | cons b bs =>
      rw [List.isPrefixOf_cons₂] at h
      simp only [Bool.and_eq_true, beq_iff_eq] at h
      obtain ⟨t, ht⟩ := ih h.2
      exact ⟨t, by rw [h.1, List.cons_append, ht]⟩

theorem isPrefixOf_trans {l₁ l₂ l₃ : List Char} (h₁ : l₁.isPrefixOf l₂ = true)
    (h₂ : l₂.isPrefixOf l₃ = true) : l₁.isPrefixOf l₃ = true := by
  obtain ⟨t₁, ht₁⟩ := eq_append_of_isPrefixOf h₁
  obtain ⟨t₂, ht₂⟩ := eq_append_of_isPrefixOf h₂
  rw [ht₂, ht₁, List.append_assoc]
  exact isPrefixOf_append_right _ _

theorem isPrefixOf_append_false {x : List Char} :
    ∀ {y : List Char}, x.isPrefixOf y = false → x.length ≤ y.length →
      ∀ t, x.isPrefixOf (y ++ t) = false := by
  induction x with
  | nil => intro y h _ _; simp at h
  | cons a as ih =>
    intro y h hlen t
    cases y with
    | nil => simp at hlen
    | cons b bs =>
      rw [List.isPrefixOf_cons₂] at h
      rw [List.cons_append, List.isPrefixOf_cons₂]
      cases hab : a == b with
      | false => simp [hab]
      | true =>
        simp only [hab, Bool.true_and] at h ⊢
        exact ih h (by simpa using hlen) t

theorem slides_of_slidesRels {s : String} (h : startsWithStr s DIR_SLIDES_RELS = true) :
    startsWithStr s DIR_SLIDES = true := by
  simp only [startsWithStr, DIR_SLIDES_RELS, DIR_SLIDES] at h ⊢
  exact isPrefixOf_trans (by decide) h

theorem not_media_of_slides {s : String} (h : startsWithStr s DIR_SLIDES = true) :
    startsWithStr s DIR_MEDIA = false := by
  simp only [startsWithStr, DIR_SLIDES, DIR_MEDIA] at h ⊢
  obtain ⟨t, ht⟩ := eq_append_of_isPrefixOf h
  rw [ht]
  exact isPrefixOf_append_false (by decide) (by decide) t

theorem not_media_of_masterRels {s : String} (h : startsWithStr s MASTER_RELS_DIR = true) :
    startsWithStr s DIR_MEDIA = false := by
  simp only [startsWithStr, MASTER_RELS_DIR, DIR_MEDIA] at h ⊢
  obtain ⟨t, ht⟩ := eq_append_of_isPrefixOf h
  rw [ht]
  exact isPrefixOf_append_false (by decide) (by decide) t

theorem not_slides_of_masterRels {s : String} (h : startsWithStr s MASTER_RELS_DIR = true) :
    startsWithStr s DIR_SLIDES = false := by
  simp only [startsWithStr, MASTER_RELS_DIR, DIR_SLIDES] at h ⊢
  obtain ⟨t, ht⟩ := eq_append_of_isPrefixOf h
  rw [ht]
  exact isPrefixOf_append_false (by decide) (by decide) t

theorem not_slidesRels_of_masterRels {s : String} (h : startsWithStr s MASTER_RELS_DIR = true) :
    startsWithStr s DIR_SLIDES_RELS = false := by
  simp only [startsWithStr, MASTER_RELS_DIR, DIR_SLIDES_RELS] at h ⊢
  obtain ⟨t, ht⟩ := eq_append_of_isPrefixOf h
  rw [ht]
  exact isPrefixOf_append_false (by decide) (by decide) t

theorem route_slidesRels {s : String} (h : startsWithStr s DIR_SLIDES_RELS = true) :
    route s = Route.slidesRels := by
  have hm : startsWithStr s DIR_MEDIA = false := not_media_of_slides (slides_of_slidesRels h)
  simp [route, hm, h]

theorem route_slideText {s : String} (h1 : startsWithStr s DIR_SLIDES = true)
    (h2 : startsWithStr s DIR_SLIDES_RELS = false) : route s = Route.slideText := by
  have hm : startsWithStr s DIR_MEDIA = false := not_media_of_slides h1
  simp [route, hm, h1, h2]

theorem route_masterRels {s : String} (h : startsWithStr s MASTER_RELS_DIR = true) :
    route s = Route.masterRels := by
  simp [route, not_media_of_masterRels h, not_slides_of_masterRels h,
    not_slidesRels_of_masterRels h, h]

theorem lookupRes_append (m l : List (Nat × SingleRes)) (k : Nat) :
    lookupRes (m ++ l) k =
      match lookupRes m k with
      | some v => some v
      | none => lookupRes l k := by
  induction m with
  | nil => rfl
  | cons p t ih =>
    obtain ⟨k₁, v₁⟩ := p
    by_cases hk : k₁ = k
    · subst hk
      simp [lookupRes]
    · simp only [List.cons_append, lookupRes, hk, if_false]
      exact ih

theorem lookupRes_map_of_some {m : List (Nat × SingleRes)} {k : Nat} {v : SingleRes}
    (f : SingleRes → SingleRes) (h : lookupRes m k = some v) :
    lookupRes (m.map (fun p => if p.1 = k then (k, f p.2) else p)) k = some (f v) := by
  induction m with
  | nil => simp [lookupRes] at h
  | cons p t ih =>
    obtain ⟨k₁, v₁⟩ := p
    by_cases hk : k₁ = k
    · subst hk
      simp only [lookupRes, if_pos rfl, if_true, eq_self_iff_true, Option.some.injEq] at h
      subst h
      have hhd : (if k₁ = k₁ then (k₁, f v₁) else (k₁, v₁)) = (k₁, f v₁) := if_pos rfl
      simp only [List.map_cons, hhd]
      simp [lookupRes]
    · have hhd : (if k₁ = k then (k, f v₁) else (k₁, v₁)) = (k₁, v₁) := if_neg hk
      simp only [lookupRes, hk, if_false] at h
      simp only [List.map_cons, hhd]
      simp only [lookupRes, hk, if_false]
      exact ih h

theorem lookupRes_map_of_other {m : List (Nat × SingleRes)} {k k' : Nat}
    (f : SingleRes → SingleRes) (h : k' ≠ k) :
    lookupRes (m.map (fun p => if p.1 = k then (k, f p.2) else p)) k' = lookupRes m k' := by
  induction m with
  | nil => rfl
  | cons p t ih =>
    obtain ⟨k₁, v₁⟩ := p
    by_cases hk : k₁ = k
    · subst hk
      have hhd : (if k₁ = k₁ then (k₁, f v₁) else (k₁, v₁)) = (k₁, f v₁) := if_pos rfl
      simp only [List.map_cons, hhd]
      simp only [lookupRes, if_neg (Ne.symm h), ih]
    · have hhd : (if k₁ = k then (k, f v₁) else (k₁, v₁)) = (k₁, v₁) := if_neg hk
      simp only [List.map_cons, hhd]
      simp only [lookupRes]
      by_cases hk' : k₁ = k'
      · simp [hk']
      · simp only [hk', if_false]
        exact ih

theorem lookupRes_mapUpdate_self (m : List (Nat × SingleRes)) (k : Nat)
    (dflt : SingleRes) (f : SingleRes → SingleRes) :
    lookupRes (mapUpdate m k dflt f) k = some (f ((lookupRes m k).getD dflt)) := by
  unfold mapUpdate
  cases h : lookupRes m k with
  | none =>
    rw [lookupRes_append, h]
    simp [lookupRes]
  | some v =>
    simp only [Option.getD_some]
    exact lookupRes_map_of_some f h

theorem lookupRes_mapUpdate_other (m : List (Nat × SingleRes)) (k k' : Nat)
    (dflt : SingleRes) (f : SingleRes → SingleRes) (h : k' ≠ k) :
    lookupRes (mapUpdate m k dflt f) k' = lookupRes m k' := by
  unfold mapUpdate
  cases hm : lookupRes m k with
  | none =>
    rw [lookupRes_append]
    cases hk' : lookupRes m k' with
    | some v => rfl
    | none => simp [lookupRes, if_neg (Ne.symm h)]
  | some v => exact lookupRes_map_of_other f h

theorem processEntry_slidesRels (ord : List (String × String) → List String) (st : PageRes)
    {e : Entry} {p : Nat} {m : List (String × String)}
    (hd : e.isDir = false) (hn : startsWithStr e.name DIR_SLIDES_RELS = true)
    (hr : rels e = some (Except.ok (p, m))) :
    processEntry ord st e = some { st with
      slides := mapUpdate st.slides p ⟨p, false, [], []⟩
        (fun r => { r with images := ord m }) } := by
  simp [processEntry, hd, route_slidesRels hn, hr]

theorem processEntry_slideText (ord : List (String × String) → List String) (st : PageRes)
    {e : Entry} {pr : SingleRes}
    (hd : e.isDir = false) (hn : startsWithStr e.name DIR_SLIDES = true)
    (hn' : startsWithStr e.name DIR_SLIDES_RELS = false)
    (hs : slide e = some (Except.ok pr)) :
    processEntry ord st e = some { st with
      slides := mapUpdate st.slides pr.page_no ⟨pr.page_no, false, [], pr.texts⟩
        (fun r => { r with texts := pr.texts }) } := by
  simp [processEntry, hd, route_slideText hn hn', hs]

theorem processEntry_masterRels (ord : List (String × String) → List String) (st : PageRes)
    {e : Entry} {p : Nat} {m : List (String × String)}
    (hd : e.isDir = false) (hn : startsWithStr e.name MASTER_RELS_DIR = true)
    (hr : rels e = some (Except.ok (p, m))) :
    processEntry ord st e = some { st with
      masters := mapUpdate st.masters p ⟨p, true, [], []⟩
        (fun r => { r with images := ord m }) } := by
  simp [processEntry, hd, route_masterRels hn, hr]

/-- C1: for every slide page number p, processing the slide relationship
entry (under ppt/slides/_rels) and the slide markup entry (under
ppt/slides) for page p in either order yields an identical final
PageRecord under key p in the slides mapping — the same images, the same
texts, the same page_no and the same slide_master flag. -/
theorem c1_merge_commutative (ord : List (String × String) → List String) (st : PageRes)
    (e₁ e₂ : Entry) (p : Nat) (m : List (String × String)) (pr : SingleRes)
    (h₁d : e₁.isDir = false) (h₂d : e₂.isDir = false)
    (h₁n : startsWithStr e₁.name DIR_SLIDES_RELS = true)
    (h₂n : startsWithStr e₂.name DIR_SLIDES = true)
    (h₂n' : startsWithStr e₂.name DIR_SLIDES_RELS = false)
    (hr : rels e₁ = some (Except.ok (p, m)))
    (hs : slide e₂ = some (Except.ok pr))
    (hp : pr.page_no = p) :
    ∃ st₁ st₂ rec,
      runEntries ord st [e₁, e₂] = some st₁ ∧
      runEntries ord st [e₂, e₁] = some st₂ ∧
      lookupRes st₁.slides p = some rec ∧
      lookupRes st₂.slides p = some rec := by
  subst hp
  refine ⟨{ st with slides := (mapUpdate
        (mapUpdate st.slides pr.page_no ⟨pr.page_no, false, [], []⟩
          (fun r => { r with images := ord m }))
        pr.page_no ⟨pr.page_no, false, [], pr.texts⟩
        (fun r => { r with texts := pr.texts })) },
      { st with slides := (mapUpdate
        (mapUpdate st.slides pr.page_no ⟨pr.page_no, false, [], pr.texts⟩
          (fun r => { r with texts := pr.texts }))
        pr.page_no ⟨pr.page_no, false, [], []⟩
        (fun r => { r with images := ord m })) },
      ((fun r => { r with texts := pr.texts })
        ((fun r => { r with images := ord m })
          ((lookupRes st.slides pr.page_no).getD ⟨pr.page_no, false, [], []⟩))),
      ?_, ?_, ?_, ?_⟩
  · simp only [runEntries, processEntry_slidesRels ord st h₁d h₁n hr,
      processEntry_slideText ord _ h₂d h₂n h₂n' hs]
  · simp only [runEntries, processEntry_slideText ord st h₂d h₂n h₂n' hs,
      processEntry_slidesRels ord _ h₁d h₁n hr]
  · simp only [lookupRes_mapUpdate_self, Option.getD_some]
  · simp only [lookupRes_mapUpdate_self, Option.getD_some]
    cases hst : lookupRes st.slides pr.page_no with
    | none => simp
    | some r => cases r; simp

/-- C1 witness: a concrete relationship entry and markup entry for slide
page 1, processed from the empty aggregate in both orders. -/
theorem c1_merge_commutative_witness :
    ∃ st₁ st₂ rec,
      runEntries (fun mm => mm.map Prod.snd) initRes
        [{ name := "ppt/slides/_rels/slide1.xml.rels", text := "",
           xml := some { children := [XMLNode.element "Relationship"
             [("Id", "rId1"), ("Type", ATTR_REL_TYPE_IMAGE),
              ("Target", "../media/image1.png")]] }, isDir := false },
         { name := "ppt/slides/slide1.xml", text := "<a:t>hello</a:t>",
           xml := none, isDir := false }] = some st₁ ∧
      runEntries (fun mm => mm.map Prod.snd) initRes
        [{ name := "ppt/slides/slide1.xml", text := "<a:t>hello</a:t>",
           xml := none, isDir := false },
         { name := "ppt/slides/_rels/slide1.xml.rels", text := "",
           xml := some { children := [XMLNode.element "Relationship"
             [("Id", "rId1"), ("Type", ATTR_REL_TYPE_IMAGE),
              ("Target", "../media/image1.png")]] }, isDir := false }] = some st₂ ∧
      lookupRes st₁.slides 1 = some rec ∧
      lookupRes st₂.slides 1 = some rec :=
  c1_merge_commutative (fun mm => mm.map Prod.snd) initRes _ _ 1
    [("rId1", "image1.png")] ⟨1, false, [], ["hello"]⟩
    (by decide) (by decide) (by decide) (by decide) (by decide)
    (by decide) (by decide) (by decide)

/-- C2: for a page key already present in the aggregate, an images-only
update from the Relationship Resolver (slide or master branch) leaves the
record's texts unchanged, and a texts-only update from the Text Extractor
leaves the record's images unchanged: fields not touched by an update
keep their previous value. -/
theorem c2_update_frame :
    (∀ (ord : List (String × String) → List String) (st : PageRes) (e : Entry)
        (p : Nat) (m : List (String × String)) (r : SingleRes),
      e.isDir = false →
      startsWithStr e.name DIR_SLIDES_RELS = true →
      rels e = some (Except.ok (p, m)) →
      lookupRes st.slides p = some r →
      ∃ st', processEntry ord st e = some st' ∧
        lookupRes st'.slides p =
          some ⟨r.page_no, r.slide_master, ord m, r.texts⟩) ∧
    (∀ (ord : List (String × String) → List String) (st : PageRes) (e : Entry)
        (pr r : SingleRes),
      e.isDir = false →
      startsWithStr e.name DIR_SLIDES = true →
      startsWithStr e.name DIR_SLIDES_RELS = false →
      slide e = some (Except.ok pr) →
      lookupRes st.slides pr.page_no = some r →
      ∃ st', processEntry ord st e = some st' ∧
        lookupRes st'.slides pr.page_no =
          some ⟨r.page_no, r.slide_master, r.images, pr.texts⟩) ∧
    (∀ (ord : List (String × String) → List String) (st : PageRes) (e : Entry)
        (p : Nat) (m : List (String × String)) (r : SingleRes),
      e.isDir = false →
      startsWithStr e.name MASTER_RELS_DIR = true →
      rels e = some (Except.ok (p, m)) →
      lookupRes st.masters p = some r →
      ∃ st', processEntry ord st e = some st' ∧
        lookupRes st'.masters p =
          some ⟨r.page_no, r.slide_master, ord m, r.texts⟩) := by
  refine ⟨?_, ?_, ?_⟩
  · intro ord st e p m r hd hn hr hl
    refine ⟨_, processEntry_slidesRels ord st hd hn hr, ?_⟩
    rw [lookupRes_mapUpdate_self, hl]
    cases r
    rfl
  · intro ord st e pr r hd hn hn' hs hl
    refine ⟨_, processEntry_slideText ord st hd hn hn' hs, ?_⟩
    rw [lookupRes_mapUpdate_self, hl]
    cases r
    rfl
  · intro ord st e p m r hd hn hr hl
    refine ⟨_, processEntry_masterRels ord st hd hn hr, ?_⟩
    rw [lookupRes_mapUpdate_self, hl]
    cases r
    rfl

/-- C2 witness: concrete images-only and texts-only updates on aggregates
that already hold a record for the key, for all three branches. -/
theorem c2_update_frame_witness :
    (∃ st', processEntry (fun mm => mm.map Prod.snd)
        { slides := [(1, ⟨1, false, [], ["old text"]⟩)], masters := [] }
        { name := "ppt/slides/_rels/slide1.xml.rels", text := "",
          xml := some { children := [XMLNode.element "Relationship"
            [("Id", "rId1"), ("Type", ATTR_REL_TYPE_IMAGE),
             ("Target", "../media/image1.png")]] }, isDir := false } = some st' ∧
      lookupRes st'.slides 1 = some ⟨1, false, ["image1.png"], ["old text"]⟩) ∧
    (∃ st', processEntry (fun mm => mm.map Prod.snd)
        { slides := [(1, ⟨1, false, ["old.png"], []⟩)], masters := [] }
        { name := "ppt/slides/slide1.xml", text := "<a:t>hello</a:t>",
          xml := none, isDir := false } = some st' ∧
      lookupRes st'.slides 1 = some ⟨1, false, ["old.png"], ["hello"]⟩) ∧
    (∃ st', processEntry (fun mm => mm.map Prod.snd)
        { slides := [], masters := [(1, ⟨1, true, [], []⟩)] }
        { name := "ppt/slideMasters/_rels/slideMaster1.xml.rels", text := "",
          xml := some { children := [XMLNode.element "Relationship"
            [("Id", "rId1"), ("Type", ATTR_REL_TYPE_IMAGE),
             ("Target", "../media/image1.png")]] }, isDir := false } = some st' ∧
      lookupRes st'.masters 1 = some ⟨1, true, ["image1.png"], []⟩) :=
  ⟨c2_update_frame.1 (fun mm => mm.map Prod.snd) _ _ 1 [("rId1", "image1.png")]
      ⟨1, false, [], ["old text"]⟩ (by decide) (by decide) (by decide) (by decide),
   c2_update_frame.2.1 (fun mm => mm.map Prod.snd) _ _ ⟨1, false, [], ["hello"]⟩
      ⟨1, false, ["old.png"], []⟩ (by decide) (by decide) (by decide) (by decide) (by decide),
   c2_update_frame.2.2 (fun mm => mm.map Prod.snd) _ _ 1 [("rId1", "image1.png")]
      ⟨1, true, [], []⟩ (by decide) (by decide) (by decide) (by decide)⟩

theorem processEntry_masters_invariant
    {ord : List (String × String) → List String} {st : PageRes} {e : Entry} {st' : PageRes}
    (hinv : MastersTextsEmpty st) (h : processEntry ord st e = some st') :
    MastersTextsEmpty st' := by
  unfold processEntry at h
  cases hd : e.isDir with
  | true =>
    rw [hd] at h
    simp only [if_true, Option.some.injEq] at h
    subst h
    exact hinv
  | false =>
    rw [hd] at h
    simp only [Bool.false_eq_true, if_false] at h
    cases hroute : route e.name <;> rw [hroute] at h
    case media =>
      cases hb : baseName e.name <;> rw [hb] at h <;> simp only [Option.some.injEq] at h
      · exact absurd h (by simp)
      · subst h; exact hinv
    case slidesRels =>
      cases hr : rels e <;> rw [hr] at h
      case none => simp at h
      case some res =>
        cases res with
        | error err => simp only [Option.some.injEq] at h; subst h; exact hinv
        | ok pm =>
          obtain ⟨p, m⟩ := pm
          simp only [Option.some.injEq] at h
          subst h
          exact hinv
    case slideText =>
      cases hr : slide e <;> rw [hr] at h
      case none => simp at h
      case some res =>
        cases res with
        | error err => simp only [Option.some.injEq] at h; subst h; exact hinv
        | ok pr =>
          simp only [Option.some.injEq] at h
          subst h
          exact hinv
    case masterRels =>
      cases hr : rels e <;> rw [hr] at h
      case none => simp at h
      case some res =>
        cases res with
        | error err => simp only [Option.some.injEq] at h; subst h; exact hinv
        | ok pm =>
          obtain ⟨p, m⟩ := pm
          simp only [Option.some.injEq] at h
          subst h
          intro q r hq
          by_cases hpq : q = p
          · subst hpq
            rw [lookupRes_mapUpdate_self] at hq
            cases hold : lookupRes st.masters q with
            | none =>
              rw [hold] at hq
              simp only [Option.getD_none, Option.some.injEq] at hq
              subst hq
              rfl
            | some r₀ =>
              rw [hold] at hq
              simp only [Option.getD_some, Option.some.injEq] at hq
              subst hq
              exact hinv q r₀ hold
          · rw [lookupRes_mapUpdate_other _ _ _ _ _ hpq] at hq
            exact hinv q r hq
    case ignored =>
      simp only [Option.some.injEq] at h
      subst h
      exact hinv

theorem runEntries_masters_invariant
    {ord : List (String × String) → List String} :
    ∀ (es : List Entry) (st st' : PageRes), MastersTextsEmpty st →
      runEntries ord st es = some st' → MastersTextsEmpty st' := by
  intro es
  induction es with
  | nil =>
    intro st st' hinv h
    simp only [runEntries, Option.some.injEq] at h
    subst h
    exact hinv
  | cons e t ih =>
    intro st st' hinv h
    unfold runEntries at h
    cases hp : processEntry ord st e with
    | none => rw [hp] at h; simp at h
    | some stm =>
      rw [hp] at h
      exact ih stm st' (processEntry_masters_invariant hinv hp) h

theorem route_masters_markup {s : String}
    (h : startsWithStr s "ppt/slideMasters" = true)
    (h2 : startsWithStr s MASTER_RELS_DIR = false) : route s = Route.ignored := by
  have hmedia : startsWithStr s DIR_MEDIA = false := by
    simp only [startsWithStr] at h ⊢
    obtain ⟨t, ht⟩ := eq_append_of_isPrefixOf h
    rw [ht]
    exact isPrefixOf_append_false (by decide) (by decide) t
  have hslides : startsWithStr s DIR_SLIDES = false := by
    simp only [startsWithStr] at h ⊢
    obtain ⟨t, ht⟩ := eq_append_of_isPrefixOf h
    rw [ht]
    exact isPrefixOf_append_false (by decide) (by decide) t
  have hsr : startsWithStr s DIR_SLIDES_RELS = false := by
    simp only [startsWithStr] at h ⊢
    obtain ⟨t, ht⟩ := eq_append_of_isPrefixOf h
    rw [ht]
    exact isPrefixOf_append_false (by decide) (by decide) t
  simp [route, hmedia, hslides, hsr, h2]

/-- C9: in every run, every PageRecord stored in the masters mapping has
an empty texts list; and a slide-master markup path (under
ppt/slideMasters but outside its _rels subdirectory) matches none of the
dispatcher's rules, so masters are never routed to text extraction. -/
theorem c9_masters_never_have_texts :
    (∀ (ord : List (String × String) → List String) (es : List Entry) (st' : PageRes),
      runEntries ord initRes es = some st' →
      ∀ p r, lookupRes st'.masters p = some r → r.texts = []) ∧
    (∀ s : String, startsWithStr s "ppt/slideMasters" = true →
      startsWithStr s MASTER_RELS_DIR = false → route s = Route.ignored) := by
  constructor
  · intro ord es st' hrun p r hl
    refine runEntries_masters_invariant es initRes st' ?_ hrun p r hl
    intro q rq hq
    simp [initRes, lookupRes] at hq
  · intro s h h2
    exact route_masters_markup h h2

/-- C9 witness: a run that builds one master record (it has no texts), and
the concrete master markup path is ignored by the dispatcher. -/
theorem c9_masters_never_have_texts_witness :
    (∀ p r, lookupRes (PageRes.masters
      { slides := [],
        masters := [(1, { page_no := 1, slide_master := true,
                          images := ["image1.png"], texts := [] })] }) p = some r →
      r.texts = []) ∧
    route "ppt/slideMasters/slideMaster1.xml" = Route.ignored :=
  ⟨fun p r hl => c9_masters_never_have_texts.1 (fun mm => mm.map Prod.snd)
      [{ name := "ppt/slideMasters/_rels/slideMaster1.xml.rels", text := "",
         xml := some { children := [XMLNode.element "Relationship"
           [("Id", "rId1"), ("Type", ATTR_REL_TYPE_IMAGE),
            ("Target", "../media/image1.png")]] }, isDir := false }]
      { slides := [],
        masters := [(1, { page_no := 1, slide_master := true,
                          images := ["image1.png"], texts := [] })] }
      (by decide) p r hl,
   c9_masters_never_have_texts.2 "ppt/slideMasters/slideMaster1.xml"
      (by decide) (by decide)⟩

/-- C8: a Relationship element whose Type is not the image relationship
type is excluded from the resolved mapping: a descriptor with exactly two
Relationship elements, one image-typed (with Id and Target) and one of
another type, resolves — in either element order — to a mapping with
exactly one entry. -/
theorem c8_non_image_excluded (e : Entry) (doc : XmlDoc)
    (aI aO : List (String × String)) (i tgt b other : String) (p : Nat)
    (hxml : e.xml = some doc)
    (hI : attrLookup aI "Type" = some ATTR_REL_TYPE_IMAGE)
    (hIi : attrLookup aI "Id" = some i)
    (hIt : attrLookup aI "Target" = some tgt)
    (hIb : baseName tgt = some b)
    (hO : attrLookup aO "Type" = some other)
    (hother : other ≠ ATTR_REL_TYPE_IMAGE)
    (hch : doc.children =
        [XMLNode.element "Relationship" aI, XMLNode.element "Relationship" aO] ∨
      doc.children =
        [XMLNode.element "Relationship" aO, XMLNode.element "Relationship" aI])
    (hp : page_no e.name = some (Except.ok p)) :
    rels e = some (Except.ok (p, [(i, b)])) ∧
      ([(i, b)] : List (String × String)).length = 1 := by
  refine ⟨?_, rfl⟩
  have hbI : buildMap [XMLNode.element "Relationship" aI] [] = some [(i, b)] := by
    simp [buildMap, hI, hIt, hIi, hIb, hashInsert]
  rcases hch with hch | hch
  · have hbm : buildMap doc.children [] = some [(i, b)] := by
      rw [hch]
      simp [buildMap, hI, hIt, hIi, hIb, hO, hother, hashInsert]
    simp [rels, hxml, hbm, hp]
  · have hbm : buildMap doc.children [] = some [(i, b)] := by
      rw [hch]
      simp [buildMap, hI, hIt, hIi, hIb, hO, hother, hashInsert]
    simp [rels, hxml, hbm, hp]

/-- C8 witness: a concrete two-relationship descriptor, one image-typed
and one hyperlink-typed, resolved to a single-entry mapping. -/
theorem c8_non_image_excluded_witness :
    rels { name := "ppt/slides/_rels/slide2.xml.rels", text := "",
           xml := some { children :=
             [XMLNode.element "Relationship"
               [("Id", "rId1"), ("Type", ATTR_REL_TYPE_IMAGE),
                ("Target", "../media/image1.png")],
              XMLNode.element "Relationship"
               [("Id", "rId2"),
                ("Type", "http://schemas.openxmlformats.org/officeDocument/2006/relationships/hyperlink"),
                ("Target", "http://example.com")]] }, isDir := false }
      = some (Except.ok (2, [("rId1", "image1.png")])) ∧
    ([("rId1", "image1.png")] : List (String × String)).length = 1 :=
  c8_non_image_excluded _ _
    [("Id", "rId1"), ("Type", ATTR_REL_TYPE_IMAGE), ("Target", "../media/image1.png")]
    [("Id", "rId2"),
     ("Type", "http://schemas.openxmlformats.org/officeDocument/2006/relationships/hyperlink"),
     ("Target", "http://example.com")]
    "rId1" "../media/image1.png" "image1.png"
    "http://schemas.openxmlformats.org/officeDocument/2006/relationships/hyperlink" 2
    rfl (by decide) (by decide) (by decide) (by decide) (by decide) (by decide)
    (Or.inl rfl) (by decide)

/-- C5 evaluation at the failing input: an image-typed Relationship
element missing its Target attribute makes `rels` panic (the `unwrap` on
line 251) instead of skipping the element, aborting the whole run; by
contrast an element missing only Type is silently excluded while the rest
of the document is processed. -/
theorem c5_missing_attribute_panics :
    rels { name := "ppt/slides/_rels/slide1.xml.rels", text := "",
           xml := some { children := [XMLNode.element "Relationship"
             [("Type", ATTR_REL_TYPE_IMAGE), ("Id", "rId1")]] }, isDir := false } = none ∧
    rels { name := "ppt/slides/_rels/slide1.xml.rels", text := "",
           xml := some { children :=
             [XMLNode.element "Relationship"
               [("Id", "rId1"), ("Target", "../media/image1.png")],
              XMLNode.element "Relationship"
               [("Type", ATTR_REL_TYPE_IMAGE), ("Id", "rId2"),
                ("Target", "../media/image2.png")]] }, isDir := false }
      = some (Except.ok (1, [("rId2", "image2.png")])) :=
  ⟨by decide, by decide⟩

theorem hashInsert_new {acc : List (String × String)} {i b : String}
    (h : ∀ k ∈ acc.map Prod.fst, k ≠ i) : hashInsert acc i b = acc ++ [(i, b)] := by
  unfold hashInsert
  rw [if_neg ?_]
  simp only [List.any_eq_true, decide_eq_true_eq, not_exists]
  intro q hq
  exact h q.1 (List.mem_map_of_mem _ hq.1) hq.2

theorem buildMap_of_nodup :
    ∀ (l : List XMLNode) (acc m : List (String × String)),
      buildMap l acc = some m →
      ((l.filterMap relPair).map Prod.fst).Nodup →
      (∀ k ∈ acc.map Prod.fst, k ∉ (l.filterMap relPair).map Prod.fst) →
      m = acc ++ l.filterMap relPair := by
  intro l
  induction l with
  | nil =>
    intro acc m h _ _
    simp only [buildMap, Option.some.injEq] at h
    simp [h.symm]
  | cons n t ih =>
    intro acc m h hnd hdisj
    cases n with
    | other => simp [buildMap] at h
    | element nm attrs =>
      by_cases hcond : nm = "Relationship" ∧ attrLookup attrs "Type" = some ATTR_REL_TYPE_IMAGE
      · unfold buildMap at h
        rw [if_pos hcond] at h
        cases hT : attrLookup attrs "Target" with
        | none => simp [hT] at h
        | some tgt =>
          simp only [hT] at h
          cases hId : attrLookup attrs "Id" with
          | none => simp [hId] at h
          | some i =>
            simp only [hId] at h
            cases hb : baseName tgt with
            | none => simp [hb] at h
            | some b =>
              simp only [hb] at h
              have hrp : relPair (XMLNode.element nm attrs) = some (i, b) := by
                simp [relPair, hcond, hT, hId, hb]
              simp only [List.filterMap_cons, hrp, List.map_cons, List.nodup_cons,
                List.mem_cons, not_or] at hnd hdisj ⊢
              obtain ⟨hi, hnd'⟩ := hnd
              have hins : hashInsert acc i b = acc ++ [(i, b)] := by
                refine hashInsert_new ?_
                intro k hk he
                exact (hdisj k hk).1 he
              rw [hins] at h
              have hres := ih (acc ++ [(i, b)]) m h hnd' ?_
              · rw [hres, List.append_assoc]
                simp
              · intro k hk
                simp only [List.map_append, List.mem_append, List.map_cons,
                  List.map_nil, List.mem_singleton] at hk
                rcases hk with hk | hk
                · exact (hdisj k hk).2
                · subst hk
                  exact hi
      · unfold buildMap at h
        rw [if_neg hcond] at h
        have hrp : relPair (XMLNode.element nm attrs) = none := by
          simp [relPair, hcond]
        simp only [List.filterMap_cons, hrp] at hnd hdisj ⊢
        exact ih acc m h hnd hdisj

theorem targets_eq_pairs_snd :
    ∀ (l : List XMLNode) (acc m : List (String × String)),
      buildMap l acc = some m →
      l.filterMap relTarget = (l.filterMap relPair).map Prod.snd := by
  intro l
  induction l with
  | nil => intro acc m _; rfl
  | cons n t ih =>
    intro acc m h
    cases n with
    | other => simp [buildMap] at h
    | element nm attrs =>
      by_cases hcond : nm = "Relationship" ∧ attrLookup attrs "Type" = some ATTR_REL_TYPE_IMAGE
      · unfold buildMap at h
        rw [if_pos hcond] at h
        cases hT : attrLookup attrs "Target" with
        | none => simp [hT] at h
        | some tgt =>
          simp only [hT] at h
          cases hId : attrLookup attrs "Id" with
          | none => simp [hId] at h
          | some i =>
            simp only [hId] at h
            cases hb : baseName tgt with
            | none => simp [hb] at h
            | some b =>
              simp only [hb] at h
              have hrp : relPair (XMLNode.element nm attrs) = some (i, b) := by
                simp [relPair, hcond, hT, hId, hb]
              have hrt : relTarget (XMLNode.element nm attrs) = some b := by
                simp [relTarget, hcond, hT, hb]
              simp only [List.filterMap_cons, hrp, hrt, List.map_cons]
              rw [ih _ _ h]
      · unfold buildMap at h
        rw [if_neg hcond] at h
        have hrp : relPair (XMLNode.element nm attrs) = none := by
          simp [relPair, hcond]
        have hrt : relTarget (XMLNode.element nm attrs) = none := by
          simp [relTarget, hcond]
        simp only [List.filterMap_cons, hrp, hrt]
        exact ih acc m h

/-- C3 counterexample: `HashMap::values()` iteration order is unspecified,
so the reversed order `ordRev` is an admissible behaviour; under it the
stored images list of a two-relationship document is the reverse of the
relationship-document iteration order, refuting the claimed equality. -/
theorem c3_order_counterexample :
    Admissible ordRev ∧
    rels { name := "ppt/slides/_rels/slide1.xml.rels", text := "",
           xml := some { children :=
             [XMLNode.element "Relationship"
               [("Id", "rId1"), ("Type", ATTR_REL_TYPE_IMAGE), ("Target", "../media/a.png")],
              XMLNode.element "Relationship"
               [("Id", "rId2"), ("Type", ATTR_REL_TYPE_IMAGE), ("Target", "../media/b.png")]] },
           isDir := false }
      = some (Except.ok (1, [("rId1", "a.png"), ("rId2", "b.png")])) ∧
    (∃ st', processEntry ordRev initRes
        { name := "ppt/slides/_rels/slide1.xml.rels", text := "",
          xml := some { children :=
            [XMLNode.element "Relationship"
              [("Id", "rId1"), ("Type", ATTR_REL_TYPE_IMAGE), ("Target", "../media/a.png")],
             XMLNode.element "Relationship"
              [("Id", "rId2"), ("Type", ATTR_REL_TYPE_IMAGE), ("Target", "../media/b.png")]] },
          isDir := false } = some st' ∧
      lookupRes st'.slides 1 = some ⟨1, false, ["b.png", "a.png"], []⟩) ∧
    ["b.png", "a.png"] ≠ imageTargets { children :=
      [XMLNode.element "Relationship"
        [("Id", "rId1"), ("Type", ATTR_REL_TYPE_IMAGE), ("Target", "../media/a.png")],
       XMLNode.element "Relationship"
        [("Id", "rId2"), ("Type", ATTR_REL_TYPE_IMAGE), ("Target", "../media/b.png")]] } := by
  refine ⟨?_, by decide, ?_, by decide⟩
  · intro m
    exact List.reverse_perm (m.map Prod.snd)
  · refine ⟨{ slides := [(1, ⟨1, false, ["b.png", "a.png"], []⟩)], masters := [] }, ?_, by decide⟩
    decide

/-- C3 amended: for every relationship-descriptor document that resolves
successfully and whose image-typed relationships carry pairwise distinct
Ids, the images sequence collected from `rels.values()` is a permutation
of the referenced base filenames in relationship-document iteration
order; the order itself is not guaranteed. -/
theorem c3_images_permutation (ord : List (String × String) → List String)
    (hadm : Admissible ord) (e : Entry) (doc : XmlDoc) (p : Nat)
    (m : List (String × String))
    (hxml : e.xml = some doc)
    (hr : rels e = some (Except.ok (p, m)))
    (hnd : ((imagePairs doc).map Prod.fst).Nodup) :
    List.Perm (ord m) (imageTargets doc) := by
  unfold rels at hr
  rw [hxml] at hr
  cases hbm : buildMap doc.children [] with
  | none => simp [hbm] at hr
  | some m₀ =>
    simp only [hbm] at hr
    cases hpn : page_no e.name with
    | none => simp [hpn] at hr
    | some res =>
      simp only [hpn] at hr
      cases res with
      | error s => simp at hr
      | ok q =>
        simp only [Option.some.injEq, Except.ok.injEq, Prod.mk.injEq] at hr
        obtain ⟨-, hm⟩ := hr
        subst hm
        have hpairs : m₀ = [] ++ doc.children.filterMap relPair :=
          buildMap_of_nodup doc.children [] m₀ hbm hnd (by simp)
        simp only [List.nil_append] at hpairs
        subst hpairs
        have htgt := targets_eq_pairs_snd doc.children [] _ hbm
        unfold imageTargets
        rw [htgt]
        exact hadm _

/-- C3 amended witness: the reversed order applied to the two-relationship
document yields a permutation of the document-order filenames. -/
theorem c3_images_permutation_witness :
    List.Perm (ordRev [("rId1", "a.png"), ("rId2", "b.png")])
      (imageTargets { children :=
        [XMLNode.element "Relationship"
          [("Id", "rId1"), ("Type", ATTR_REL_TYPE_IMAGE), ("Target", "../media/a.png")],
         XMLNode.element "Relationship"
          [("Id", "rId2"), ("Type", ATTR_REL_TYPE_IMAGE), ("Target", "../media/b.png")]] }) :=
  c3_images_permutation ordRev
    (fun m => List.reverse_perm (m.map Prod.snd))
    { name := "ppt/slides/_rels/slide1.xml.rels", text := "",
      xml := some { children :=
        [XMLNode.element "Relationship"
          [("Id", "rId1"), ("Type", ATTR_REL_TYPE_IMAGE), ("Target", "../media/a.png")],
         XMLNode.element "Relationship"
          [("Id", "rId2"), ("Type", ATTR_REL_TYPE_IMAGE), ("Target", "../media/b.png")]] },
      isDir := false }
    _ 1 [("rId1", "a.png"), ("rId2", "b.png")] rfl (by decide) (by decide)

theorem takeWhile_append_all {p : Char → Bool} :
    ∀ {ds r : List Char}, (∀ x ∈ ds, p x = true) →
      (ds ++ r).takeWhile p = ds ++ r.takeWhile p := by
  intro ds
  induction ds with
  | nil => intro r _; simp
  | cons d t ih =>
    intro r h
    simp only [List.cons_append, List.takeWhile_cons, h d (by simp), if_true]
    rw [ih (fun x hx => h x (by simp [hx]))]

theorem pickK_some {ds rest : List Char} :
    ∀ {n k : Nat}, 1 ≤ k → k ≤ n → tailOk rest k = true → pickK ds rest n ≠ none := by
  intro n
  induction n with
  | zero => intro k h1 h2 _; omega
  | succ n ih =>
    intro k h1 h2 htail
    unfold pickK
    by_cases hc : tailOk rest (n + 1) = true
    · simp [hc]
    · rw [if_neg hc]
      have hk : k ≤ n := by
        by_cases hkn : k = n + 1
        · subst hkn; exact absurd htail hc
        · omega
      exact ih h1 hk htail

theorem tryKw_at_occurrence {kw ds : List Char} {c : Char} {suf : List Char}
    (hds : ds ≠ []) (hdig : ∀ x ∈ ds, x.isDigit = true) (hc : c ≠ '\n') :
    tryKw kw (kw ++ (ds ++ c :: (xmlLit ++ suf))) ≠ none := by
  unfold tryKw
  rw [if_pos (isPrefixOf_append_right kw _)]
  rw [List.drop_left]
  dsimp only
  rw [takeWhile_append_all hdig]
  have hlen : ds.length ≤ (ds ++ (c :: (xmlLit ++ suf)).takeWhile Char.isDigit).length := by
    simp
  have hne : ¬ (ds ++ (c :: (xmlLit ++ suf)).takeWhile Char.isDigit).length = 0 := by
    cases ds with
    | nil => exact absurd rfl hds
    | cons d t => simp
  rw [if_neg hne]
  have htail : tailOk (ds ++ c :: (xmlLit ++ suf)) ds.length = true := by
    unfold tailOk
    rw [List.drop_left]
    simp only [Bool.and_eq_true, decide_eq_true_eq]
    exact ⟨by simpa using hc, isPrefixOf_append_right xmlLit suf⟩
  have h1 : 1 ≤ ds.length := by
    cases ds with
    | nil => exact absurd rfl hds
    | cons d t => simp
  exact pickK_some h1 hlen htail

theorem tryAt_at_occurrence {kw : List Char} (hkw : kw = kwSlide ∨ kw = kwSlideMaster)
    {ds : List Char} {c : Char} {suf : List Char}
    (hds : ds ≠ []) (hdig : ∀ x ∈ ds, x.isDigit = true) (hc : c ≠ '\n') :
    tryAt (kw ++ (ds ++ c :: (xmlLit ++ suf))) ≠ none := by
  unfold tryAt
  rcases hkw with rfl | rfl
  · cases h : tryKw kwSlide (kwSlide ++ (ds ++ c :: (xmlLit ++ suf))) with
    | some x => simp
    | none => exact absurd h (tryKw_at_occurrence hds hdig hc)
  · cases h : tryKw kwSlide (kwSlideMaster ++ (ds ++ c :: (xmlLit ++ suf))) with
    | some x => simp
    | none =>
      simp only []
      exact tryKw_at_occurrence hds hdig hc

theorem findPageMatch_of_tryAt :
    ∀ (pre rest : List Char), tryAt rest ≠ none → findPageMatch (pre ++ rest) ≠ none := by
  intro pre
  induction pre with
  | nil =>
    intro rest h
    cases rest with
    | nil => exact absurd (by decide) h
    | cons c cs =>
      rw [List.nil_append]
      unfold findPageMatch
      cases ht : tryAt (c :: cs) with
      | some ds => simp
      | none => exact absurd ht h
  | cons q ps ih =>
    intro rest h
    rw [List.cons_append]
    unfold findPageMatch
    cases ht : tryAt (q :: (ps ++ rest)) with
    | some ds => simp
    | none =>
      simp only []
      exact ih rest h

theorem findPageMatch_of_anyXml {l : List Char} (h : AnyXmlAt l) :
    findPageMatch l ≠ none := by
  obtain ⟨pre, kw, ds, c, suf, hkw, hds, hdig, hc, rfl⟩ := h
  have hassoc : pre ++ kw ++ ds ++ c :: (xmlLit ++ suf) =
      pre ++ (kw ++ (ds ++ c :: (xmlLit ++ suf))) := by
    simp [List.append_assoc]
  rw [hassoc]
  exact findPageMatch_of_tryAt pre _ (tryAt_at_occurrence hkw hds hdig hc)

theorem anyXml_of_dotXml {l : List Char} (h : DotXmlAt l) : AnyXmlAt l := by
  obtain ⟨pre, kw, ds, suf, hkw, hds, hdig, hl⟩ := h
  exact ⟨pre, kw, ds, '.', suf, hkw, hds, hdig, by decide, hl⟩

theorem page_no_error_no_match {fname : String} {msg : String}
    (h : page_no fname = some (Except.error msg)) : findPageMatch fname.data = none := by
  unfold page_no at h
  cases hf : findPageMatch fname.data with
  | none => rfl
  | some ds =>
    rw [hf] at h
    by_cases hlt : digitsToNat ds < U32SIZE
    · simp [hlt] at h
    · simp [hlt] at h

/-- C7 amended: the Page Identifier's pattern ends in an unescaped dot
(any character except newline, then `xml`), not the literal `.xml`.  A
path containing keyword+digits+`.xml` never yields MissingPageNumber;
leading zeros are ignored (slide07.xml gives 7); but e.g. slide1Zxml also
matches and yields 1; MissingPageNumber arises only when no
keyword+digits+anychar+`xml` occurrence exists. -/
theorem c7_page_number_pattern :
    (∀ fname : String, DotXmlAt fname.data →
      ∀ msg, page_no fname ≠ some (Except.error msg)) ∧
    page_no "slide07.xml" = some (Except.ok 7) ∧
    page_no "slide1Zxml" = some (Except.ok 1) ∧
    (∀ (fname msg : String), page_no fname = some (Except.error msg) →
      ¬ AnyXmlAt fname.data) := by
  refine ⟨?_, by decide, by decide, ?_⟩
  · intro fname hdot msg heq
    exact findPageMatch_of_anyXml (anyXml_of_dotXml hdot) (page_no_error_no_match heq)
  · intro fname msg h hany
    exact findPageMatch_of_anyXml hany (page_no_error_no_match h)

/-- C7 counterexample: slide1Zxml contains no occurrence of
keyword+digits+`.xml` (there is no dot in it at all), so the claim says
the Page Identifier returns the MissingPageNumber error — but the code's
unescaped dot matches `Z` and page_no returns Ok 1. -/
theorem c7_counterexample :
    ¬ DotXmlAt "slide1Zxml".data ∧ page_no "slide1Zxml" = some (Except.ok 1) := by
  refine ⟨?_, by decide⟩
  intro h
  obtain ⟨pre, kw, ds, suf, hkw, hds, hdig, hl⟩ := h
  have hdot : '.' ∈ "slide1Zxml".data := by
    rw [hl]
    simp
  revert hdot
  decide

/-- C7 witness: a real slide path with a leading-zero page number never
returns the error, and a patternless path has no match occurrence. -/
theorem c7_page_number_pattern_witness :
    (∀ msg, page_no "ppt/slides/slide07.xml" ≠ some (Except.error msg)) ∧
    ¬ AnyXmlAt "notapage.txt".data :=
  ⟨c7_page_number_pattern.1 "ppt/slides/slide07.xml"
      ⟨"ppt/slides/".data, kwSlide, ['0', '7'], [], Or.inl rfl, by decide, by decide, by decide⟩,
   c7_page_number_pattern.2.2.2 "notapage.txt" "Can't find valid page no" (by decide)⟩

/-- C10: the Page Identifier panics (rather than returning
MissingPageNumber) on a matching path whose digit run exceeds the u32
range — the `parse::<u32>().unwrap()` on line 269 — and the error value is
produced only when the pattern does not match at all. -/
theorem c10_overflow_panics :
    page_no "slide99999999999.xml" = none ∧
    (∀ (fname msg : String), page_no fname = some (Except.error msg) →
      findPageMatch fname.data = none) :=
  ⟨by decide, fun _ _ h => page_no_error_no_match h⟩

/-- C10 witness: the error-only-on-no-match part applied at a concrete
non-matching path. -/
theorem c10_overflow_panics_witness :
    findPageMatch "ppt/theme/theme1.xml".data = none :=
  c10_overflow_panics.2 "ppt/theme/theme1.xml" "Can't find valid page no" (by decide)

theorem splitFirst_self (a : Char) (as t : List Char) :
    splitFirst (a :: as) ((a :: as) ++ t) = some ([], t) := by
  rw [List.cons_append]
  unfold splitFirst
  rw [if_pos ?_]
  · rw [← List.cons_append, List.drop_left]
  · rw [← List.cons_append]
    exact isPrefixOf_append_right _ _

theorem splitFirst_close_clean :
    ∀ {xs : List Char}, '<' ∉ xs →
      ∀ r, splitFirst closeTag (xs ++ (closeTag ++ r)) = some (xs, r) := by
  intro xs
  induction xs with
  | nil =>
    intro _ r
    rw [List.nil_append]
    exact splitFirst_self '<' ['/', 'a', ':', 't', '>'] r
  | cons x txs ih =>
    intro hx r
    have hxne : ¬ closeTag.isPrefixOf (x :: (txs ++ (closeTag ++ r))) = true := by
      intro hpre
      simp only [closeTag, List.isPrefixOf_cons₂, Bool.and_eq_true, beq_iff_eq] at hpre
      exact hx (by rw [hpre.1]; exact List.mem_cons_self _ _)
    rw [List.cons_append]
    unfold splitFirst
    rw [if_neg hxne]
    rw [ih (fun hmem => hx (List.mem_cons_of_mem _ hmem)) r]

theorem splitFirst_sound {tag : List Char} :
    ∀ {l b a : List Char}, splitFirst tag l = some (b, a) → l = b ++ tag ++ a := by
  intro l
  induction l with
  | nil => intro b a h; simp [splitFirst] at h
  | cons c cs ih =>
    intro b a h
    unfold splitFirst at h
    by_cases hp : tag.isPrefixOf (c :: cs) = true
    · rw [if_pos hp] at h
      simp only [Option.some.injEq, Prod.mk.injEq] at h
      obtain ⟨hb, ha⟩ := h
      subst hb
      subst ha
      obtain ⟨t, ht⟩ := eq_append_of_isPrefixOf hp
      rw [List.nil_append, ht, List.drop_left]
    · rw [if_neg hp] at h
      cases hs : splitFirst tag cs with
      | none => simp [hs] at h
      | some pq =>
        obtain ⟨b', a'⟩ := pq
        simp only [hs, Option.some.injEq, Prod.mk.injEq] at h
        obtain ⟨hb, ha⟩ := h
        subst hb
        subst ha
        rw [List.cons_append, List.cons_append, ih hs]

theorem splitFirst_length {tag : List Char} (htag : tag ≠ []) {l b a : List Char}
    (h : splitFirst tag l = some (b, a)) : a.length < l.length := by
  rw [splitFirst_sound h]
  cases tag with
  | nil => exact absurd rfl htag
  | cons x xs =>
    simp [List.length_append]
    omega

theorem scanAux_eq : ∀ (f g : Nat) (l : List Char),
    l.length ≤ f → l.length ≤ g → scanAux f l = scanAux g l := by
  intro f
  induction f with
  | zero =>
    intro g l hf _
    have hl : l = [] := List.eq_nil_of_length_eq_zero (Nat.le_zero.mp hf)
    subst hl
    cases g <;> rfl
  | succ f ih =>
    intro g l hf hg
    cases g with
    | zero =>
      have hl : l = [] := List.eq_nil_of_length_eq_zero (Nat.le_zero.mp hg)
      subst hl
      rfl
    | succ g' =>
      simp only [scanAux]
      cases h1 : splitFirst openTag l with
      | none => rfl
      | some pr =>
        obtain ⟨pre, rest⟩ := pr
        cases rest with
        | nil => rfl
        | cons d ds =>
          cases h2 : splitFirst closeTag ds with
          | none => simp only [h2]
          | some pq =>
            obtain ⟨b, a⟩ := pq
            simp only [h2]
            congr 1
            have hsound := splitFirst_sound h1
            have hlen2 : a.length < ds.length := splitFirst_length (by decide) h2
            have hlen : a.length < l.length := by
              rw [hsound]
              simp [List.length_append]
              omega
            exact ih g' a (by omega) (by omega)

theorem scanL_match (d : Char) (xs r : List Char) (hxs : '<' ∉ xs) :
    scanAux (openTag ++ ((d :: xs) ++ (closeTag ++ r))).length
        (openTag ++ ((d :: xs) ++ (closeTag ++ r)))
      = String.mk (d :: xs) :: scanAux r.length r := by
  have hshape : openTag ++ ((d :: xs) ++ (closeTag ++ r))
      = openTag ++ (d :: (xs ++ (closeTag ++ r))) := by simp
  rw [hshape]
  have hlen : (openTag ++ (d :: (xs ++ (closeTag ++ r)))).length
      = 12 + xs.length + r.length := by
    simp [List.length_append, openTag, closeTag]
    omega
  obtain ⟨n, hn⟩ : ∃ n, (openTag ++ (d :: (xs ++ (closeTag ++ r)))).length = n + 1 :=
    ⟨11 + xs.length + r.length, by omega⟩
  rw [hn]
  have h1 : splitFirst openTag (openTag ++ (d :: (xs ++ (closeTag ++ r))))
      = some ([], d :: (xs ++ (closeTag ++ r))) :=
    splitFirst_self '<' ['a', ':', 't', '>'] _
  have h2 : splitFirst closeTag (xs ++ (closeTag ++ r)) = some (xs, r) :=
    splitFirst_close_clean hxs r
  simp only [scanAux, h1, h2]
  congr 1
  exact scanAux_eq n r.length r (by omega) (le_refl _)

theorem scanL_match_last (d : Char) (xs : List Char) (hxs : '<' ∉ xs) :
    scanAux (openTag ++ ((d :: xs) ++ closeTag)).length
        (openTag ++ ((d :: xs) ++ closeTag))
      = [String.mk (d :: xs)] := by
  have h : openTag ++ ((d :: xs) ++ closeTag)
      = openTag ++ ((d :: xs) ++ (closeTag ++ [])) := by simp
  rw [h, scanL_match d xs [] hxs]
  rfl

/-- C4 amended: a slide markup string consisting of three text-run tag
pairs, each with non-empty inner content free of the tag delimiter `<`,
yields exactly the three inner strings in order of appearance; a tag pair
with empty inner content produces no entry, because the regex requires at
least one inner character. -/
theorem c4_three_text_runs (a b c : List Char)
    (ha : a ≠ []) (hb : b ≠ []) (hc : c ≠ [])
    (ha' : '<' ∉ a) (hb' : '<' ∉ b) (hc' : '<' ∉ c) :
    extractTexts (String.mk (openTag ++ (a ++ (closeTag ++
        (openTag ++ (b ++ (closeTag ++ (openTag ++ (c ++ closeTag))))))))) =
      [String.mk a, String.mk b, String.mk c] := by
  have hdata : ∀ l : List Char, (String.mk l).data = l := fun _ => rfl
  cases a with
  | nil => exact absurd rfl ha
  | cons d xs =>
    cases b with
    | nil => exact absurd rfl hb
    | cons e ys =>
      cases c with
      | nil => exact absurd rfl hc
      | cons f zs =>
        unfold extractTexts
        simp only [hdata]
        rw [scanL_match d xs _ (fun hm => ha' (List.mem_cons_of_mem _ hm))]
        rw [scanL_match e ys _ (fun hm => hb' (List.mem_cons_of_mem _ hm))]
        rw [scanL_match_last f zs (fun hm => hc' (List.mem_cons_of_mem _ hm))]

/-- C4 counterexample: three tag pairs in sequence where the middle pair
is empty.  The regex `+?` requires at least one inner character, so the
empty pair yields no match; worse, its closing tag is swallowed into the
next capture.  The result has two strings, not three, and contains no
empty string. -/
theorem c4_counterexample :
    extractTexts "<a:t>a</a:t><a:t></a:t><a:t>b</a:t>" = ["a", "</a:t><a:t>b"] ∧
    (extractTexts "<a:t>a</a:t><a:t></a:t><a:t>b</a:t>").length ≠ 3 :=
  ⟨by decide, by decide⟩

/-- C4 witness: three concrete non-empty runs x, y, z extracted in order. -/
theorem c4_three_text_runs_witness :
    extractTexts (String.mk (openTag ++ (['x'] ++ (closeTag ++
        (openTag ++ (['y'] ++ (closeTag ++ (openTag ++ (['z'] ++ closeTag))))))))) =
      [String.mk ['x'], String.mk ['y'], String.mk ['z']] :=
  c4_three_text_runs ['x'] ['y'] ['z'] (by decide) (by decide) (by decide)
    (by decide) (by decide) (by decide)

/-- C6: the Dispatcher routes ppt/slides/_rels/slide1.xml.rels to the
Relationship Resolver (its branch precedes the generic ppt/slides rule)
and never to the Text Extractor, and given that entry (with at least one
resolving image relationship) together with ppt/slides/slide1.xml (with
at least one text run), the final PageRecord for slide page 1 has a
non-empty images list and a non-empty texts list, whichever entry is
processed first. -/
theorem c6_rels_routing (ord : List (String × String) → List String)
    (hadm : Admissible ord) (e₁ e₂ : Entry) (m : List (String × String))
    (h₁name : e₁.name = "ppt/slides/_rels/slide1.xml.rels")
    (h₂name : e₂.name = "ppt/slides/slide1.xml")
    (h₁d : e₁.isDir = false) (h₂d : e₂.isDir = false)
    (hr : rels e₁ = some (Except.ok (1, m))) (hm : m ≠ [])
    (ht : extractTexts e₂.text ≠ []) :
    route e₁.name = Route.slidesRels ∧ route e₁.name ≠ Route.slideText ∧
    (∃ st₁ r₁, runEntries ord initRes [e₁, e₂] = some st₁ ∧
      lookupRes st₁.slides 1 = some r₁ ∧ r₁.images ≠ [] ∧ r₁.texts ≠ []) ∧
    (∃ st₂ r₂, runEntries ord initRes [e₂, e₁] = some st₂ ∧
      lookupRes st₂.slides 1 = some r₂ ∧ r₂.images ≠ [] ∧ r₂.texts ≠ []) := by
  have h₁n : startsWithStr e₁.name DIR_SLIDES_RELS = true := by rw [h₁name]; decide
  have h₂n : startsWithStr e₂.name DIR_SLIDES = true := by rw [h₂name]; decide
  have h₂n' : startsWithStr e₂.name DIR_SLIDES_RELS = false := by rw [h₂name]; decide
  have hpn : page_no e₂.name = some (Except.ok 1) := by rw [h₂name]; decide
  have hs : slide e₂ =
      some (Except.ok ⟨1, false, [], extractTexts e₂.text⟩) := by
    unfold slide
    rw [hpn]
  have himg : ord m ≠ [] := by
    intro hcontra
    have hlen := (hadm m).length_eq
    rw [hcontra] at hlen
    simp only [List.length_nil, List.length_map] at hlen
    exact hm (List.eq_nil_of_length_eq_zero hlen.symm)
  refine ⟨by rw [h₁name]; decide, by rw [h₁name]; decide, ?_, ?_⟩
  · refine ⟨{ initRes with slides := (mapUpdate
        (mapUpdate initRes.slides 1 ⟨1, false, [], []⟩
          (fun r => { r with images := ord m }))
        1 ⟨1, false, [], extractTexts e₂.text⟩
        (fun r => { r with texts := extractTexts e₂.text })) },
      ⟨1, false, ord m, extractTexts e₂.text⟩, ?_, ?_, himg, ht⟩
    · simp only [runEntries, processEntry_slidesRels ord initRes h₁d h₁n hr,
        processEntry_slideText ord _ h₂d h₂n h₂n' hs]
    · simp only [lookupRes_mapUpdate_self, Option.getD_some]
      simp [initRes, lookupRes]
  · refine ⟨{ initRes with slides := (mapUpdate
        (mapUpdate initRes.slides 1 ⟨1, false, [], extractTexts e₂.text⟩
          (fun r => { r with texts := extractTexts e₂.text }))
        1 ⟨1, false, [], []⟩
        (fun r => { r with images := ord m })) },
      ⟨1, false, ord m, extractTexts e₂.text⟩, ?_, ?_, himg, ht⟩
    · simp only [runEntries, processEntry_slideText ord initRes h₂d h₂n h₂n' hs,
        processEntry_slidesRels ord _ h₁d h₁n hr]
    · simp only [lookupRes_mapUpdate_self, Option.getD_some]
      simp [initRes, lookupRes]

/-- C6 witness: the two concrete entries for slide page 1 processed in
both orders from the empty aggregate. -/
theorem c6_rels_routing_witness :
    route "ppt/slides/_rels/slide1.xml.rels" = Route.slidesRels ∧
    route "ppt/slides/_rels/slide1.xml.rels" ≠ Route.slideText ∧
    (∃ st₁ r₁, runEntries (fun mm => mm.map Prod.snd) initRes
        [{ name := "ppt/slides/_rels/slide1.xml.rels", text := "",
           xml := some { children := [XMLNode.element "Relationship"
             [("Id", "rId1"), ("Type", ATTR_REL_TYPE_IMAGE),
              ("Target", "../media/image1.png")]] }, isDir := false },
         { name := "ppt/slides/slide1.xml", text := "<a:t>hello</a:t>",
           xml := none, isDir := false }] = some st₁ ∧
      lookupRes st₁.slides 1 = some r₁ ∧ r₁.images ≠ [] ∧ r₁.texts ≠ []) ∧
    (∃ st₂ r₂, runEntries (fun mm => mm.map Prod.snd) initRes
        [{ name := "ppt/slides/slide1.xml", text := "<a:t>hello</a:t>",
           xml := none, isDir := false },
         { name := "ppt/slides/_rels/slide1.xml.rels", text := "",
           xml := some { children := [XMLNode.element "Relationship"
             [("Id", "rId1"), ("Type", ATTR_REL_TYPE_IMAGE),
              ("Target", "../media/image1.png")]] }, isDir := false }] = some st₂ ∧
      lookupRes st₂.slides 1 = some r₂ ∧ r₂.images ≠ [] ∧ r₂.texts ≠ []) :=
  c6_rels_routing (fun mm => mm.map Prod.snd) (fun _ => List.Perm.refl _)
    { name := "ppt/slides/_rels/slide1.xml.rels", text := "",
      xml := some { children := [XMLNode.element "Relationship"
        [("Id", "rId1"), ("Type", ATTR_REL_TYPE_IMAGE),
         ("Target", "../media/image1.png")]] }, isDir := false }
    { name := "ppt/slides/slide1.xml", text := "<a:t>hello</a:t>",
      xml := none, isDir := false }
    [("rId1", "image1.png")] rfl rfl rfl rfl (by decide) (by decide) (by decide)
